import Mathlib

/-!
# Verification of the copley tapped-density driver

A shallow embedding of the `copley` Python driver for the Copley JV100i
tapped density tester, together with proofs about its report decoder
(`TapDensity._parse` in `copley/driver.py`), its reconnecting client state
machine (`Client` / `TcpClient` in `copley/util.py`), its address parsing
(`TapDensity.__init__` / `TcpClient.__init__`), and its line-reading
primitives (`TcpClient._readline` / `SerialClient._readline`).

Python strings are modelled as Lean `String`s (operated on through their
character lists), Python `None` as `Option.none`, raised exceptions as the
`Except` error channel, and the mutable client attributes as an explicit
`ClientState` record threaded through the functions.
-/

namespace Copley

/-! ## Python string primitives -/

/-- The whitespace characters stripped by Python's `str.strip()`. -/
def pyWs (c : Char) : Bool :=
  c = ' ' || c = '\t' || c = '\n' || c = '\r' || c = '\x0b' || c = '\x0c'

/-- `str.strip()` on a character list: drop leading and trailing whitespace. -/
def stripList (cs : List Char) : List Char :=
  ((cs.dropWhile pyWs).reverse.dropWhile pyWs).reverse

/-- `str.strip()` on a `String`. -/
def pyStrip (s : String) : String :=
  String.mk (stripList s.toList)

/-- `str.split(sep)` for a one-character separator, on a character list.
Mirrors Python: `"".split(':') = [""]`, `":".split(':') = ["", ""]`. -/
def splitList (sep : Char) : List Char → List (List Char)
  | [] => [[]]
  | c :: rest =>
    if c = sep then [] :: splitList sep rest
    else
      match splitList sep rest with
      | [] => [[c]]
      | h :: t => (c :: h) :: t

/-- `str.split(sep)` on a `String`, for a one-character separator. -/
def pySplit (sep : Char) (s : String) : List String :=
  (splitList sep s.toList).map String.mk

/-- Boolean list-prefix test. -/
def isPrefixList : List Char → List Char → Bool
  | [], _ => true
  | _ :: _, [] => false
  | a :: as, b :: bs => a = b && isPrefixList as bs

/-- Boolean list-infix test: does `n` occur contiguously inside `h`? -/
def isInfixList (n : List Char) : List Char → Bool
  | [] => isPrefixList n []
  | c :: t => isPrefixList n (c :: t) || isInfixList n t

/-- Python's `needle in hay` substring test. -/
def substrIn (needle hay : String) : Bool :=
  isInfixList needle.toList hay.toList

/-- Python's `str.startswith(p)`. -/
def pyStartswith (p s : String) : Bool :=
  isPrefixList p.toList s.toList

/-- Accumulate a decimal digit list into a natural number. -/
def digitsToNat (acc : Nat) : List Char → Nat
  | [] => acc
  | c :: rest => digitsToNat (acc * 10 + (c.toNat - '0'.toNat)) rest

/-- The builtin `int(s)` on a character list: optional surrounding whitespace,
an optional sign, then one or more decimal digits; `none` models the
`ValueError` raised on any other input.  (Digit-group underscores and
non-ASCII digits, which `int` also accepts, are not modelled; no report
value uses them.) -/
def pyIntList (cs : List Char) : Option Int :=
  match stripList cs with
  | '+' :: rest =>
    if rest ≠ [] && rest.all Char.isDigit then some (digitsToNat 0 rest) else none
  | '-' :: rest =>
    if rest ≠ [] && rest.all Char.isDigit then some (-(digitsToNat 0 rest : Int)) else none
  | rest =>
    if rest ≠ [] && rest.all Char.isDigit then some (digitsToNat 0 rest) else none

/-- The builtin `int(s)` on a `String`. -/
def pyInt (s : String) : Option Int :=
  pyIntList s.toList

/-- Exponent tail of a float literal: optional sign then one or more digits. -/
def expTail (cs : List Char) : Bool :=
  match cs with
  | '+' :: r => r ≠ [] && r.all Char.isDigit
  | '-' :: r => r ≠ [] && r.all Char.isDigit
  | r => r ≠ [] && r.all Char.isDigit

/-- Mantissa of a float literal: digits with an optional point, at least one
digit overall; returns the unconsumed rest on success. -/
def floatMantissa (cs : List Char) : Option (List Char) :=
  let intPart := cs.takeWhile Char.isDigit
  let rest := cs.dropWhile Char.isDigit
  match rest with
  | '.' :: rest2 =>
    let frac := rest2.takeWhile Char.isDigit
    if intPart = [] && frac = [] then none else some (rest2.dropWhile Char.isDigit)
  | _ => if intPart = [] then none else some rest

/-- Optional exponent part of a float literal. -/
def floatExpPart (cs : List Char) : Bool :=
  match cs with
  | [] => true
  | 'e' :: rest => expTail rest
  | 'E' :: rest => expTail rest
  | _ => false

/-- Does the builtin `float(s)` accept this character list?  Models the
decimal-literal core (sign, digits, optional point, optional exponent);
`false` models the `ValueError` raised otherwise.  (`inf` / `nan` spellings
and digit-group underscores are not modelled; no report value uses them.) -/
def pyFloatOkList (cs : List Char) : Bool :=
  let cs1 := stripList cs
  let cs2 := match cs1 with
    | '+' :: r => r
    | '-' :: r => r
    | r => r
  match floatMantissa cs2 with
  | none => false
  | some rest => floatExpPart rest

/-- Does the builtin `float(s)` accept this `String`? -/
def pyFloatOk (s : String) : Bool :=
  pyFloatOkList s.toList

/-! ## The report decoder (`TapDensity._parse`, `copley/driver.py`)

`_parse` scans the response lines with an if/elif chain of substring
matches, binding one local variable per recognized label, then builds the
result dictionary from those locals inside a `try`: a label that never
matched leaves its local unbound, the dictionary expression raises
`NameError`, and the handler returns the one-element set
`{f'Could not parse: {e}'}` instead of a dict. -/

/-- The eleven report fields, named by their result-dictionary keys. -/
inductive Label
  | serial_number
  | calc_type
  | set_speed
  | total_taps
  | sample_weight
  | init_volume
  | final_volume
  | bulk_density
  | tapped_density
  | hausner_ratio
  | compress_index
deriving DecidableEq, Fintype

/-- The label substring `_parse` looks for in a line, per field. -/
def labelSubstr : Label → String
  | .serial_number => "Serial number"
  | .calc_type => "Calculation type"
  | .set_speed => "Set Speed"
  | .total_taps => "Total Taps"
  | .sample_weight => "Sample Weight, W"
  | .init_volume => "Initial Volume"
  | .final_volume => "Final Volume"
  | .bulk_density => "Bulk Density"
  | .tapped_density => "Tapped Density (g/mL)"
  | .hausner_ratio => "Hausner Ratio"
  | .compress_index => "Compress. Index"

/-- The Python local variable `_parse` binds for each field; this is the
name appearing in the `NameError` when the field's label never matched. -/
def varName : Label → String
  | .serial_number => "sn"
  | .calc_type => "calc_type"
  | .set_speed => "set_speed"
  | .total_taps => "total_taps"
  | .sample_weight => "sample_weight"
  | .init_volume => "init_volume"
  | .final_volume => "final_volume"
  | .bulk_density => "bulk_density"
  | .tapped_density => "tapped_density"
  | .hausner_ratio => "hausner_ratio"
  | .compress_index => "compress_index"

/-- The order in which the result-dictionary expression evaluates the
locals; the first unbound one in this order raises the `NameError`. -/
def dictOrder : List Label :=
  [.serial_number, .calc_type, .set_speed, .total_taps, .sample_weight,
   .init_volume, .final_volume, .bulk_density, .tapped_density,
   .hausner_ratio, .compress_index]

/-- A parsed field value: `int(...)` result, `float(...)` result (carrying
the accepted source text; no claim needs the numeric value itself), or the
raw trimmed text. -/
inductive FieldValue
  | int (n : Int)
  | float (text : String)
  | str (s : String)
deriving DecidableEq

instance : Inhabited FieldValue := ⟨.str ""⟩

/-- The value representation each field receives in the code: `int` for
serial number and total taps, raw text for calculation type, `int` when
numeric else raw text for set speed, `float` for the seven measurement
fields. -/
def tagOk : Label → FieldValue → Bool
  | .serial_number, .int _ => true
  | .calc_type, .str _ => true
  | .set_speed, .int _ => true
  | .set_speed, .str _ => true
  | .total_taps, .int _ => true
  | .sample_weight, .float _ => true
  | .init_volume, .float _ => true
  | .final_volume, .float _ => true
  | .bulk_density, .float _ => true
  | .tapped_density, .float _ => true
  | .hausner_ratio, .float _ => true
  | .compress_index, .float _ => true
  | _, _ => false

/-- The if/elif substring chain of `_parse`: the first label (in source
order, which is `dictOrder`) whose substring occurs in the (unstripped)
line, if any. -/
def matchedLabel (line : String) : Option Label :=
  dictOrder.find? fun lab => substrIn (labelSubstr lab) line

/-- `line.strip().split(':')[1].strip()`: the trimmed text after the first
colon; `none` models the `IndexError` raised when the line has no colon. -/
def colonValue (line : String) : Option String :=
  ((pySplit ':' (pyStrip line)).get? 1).map pyStrip

/-- How `_parse` converts the colon value of a matched line, per field.
An `.error` models the uncaught `ValueError` from `int(...)` or
`float(...)`; only `Set Speed` catches its `ValueError` and falls back to
the raw text. -/
def parseValue (lab : Label) (v : String) : Except String FieldValue :=
  match lab with
  | .serial_number =>
    match pyInt v with
    | some n => .ok (.int n)
    | none => .error "ValueError"
  | .calc_type => .ok (.str v)
  | .set_speed =>
    match pyInt v with
    | some n => .ok (.int n)
    | none => .ok (.str v)
  | .total_taps =>
    match pyInt v with
    | some n => .ok (.int n)
    | none => .error "ValueError"
  | _ => if pyFloatOk v then .ok (.float v) else .error "ValueError"

/-- What one loop iteration of `_parse` does with a line, before touching
the accumulated state: nothing (`.ok none`) for an unrecognized line, a
field binding (`.ok (some _)`), or an uncaught exception (`.error`). -/
def lineStep (line : String) : Except String (Option (Label × FieldValue)) :=
  match matchedLabel line with
  | none => .ok none
  | some lab =>
    match colonValue line with
    | none => .error "IndexError"
    | some v => (parseValue lab v).map (fun fv => some (lab, fv))

/-- The loop state: which locals are bound so far, and to what. -/
def ScanState : Type := Label → Option FieldValue

/-- The state at loop entry: no local bound. -/
def emptyScan : ScanState := fun _ => none

/-- One loop iteration of `_parse` acting on the state. -/
def processLine (s : ScanState) (line : String) : Except String ScanState :=
  (lineStep line).map fun upd =>
    match upd with
    | none => s
    | some (lab, fv) => fun l => if l = lab then some fv else s l

/-- The `for line in response:` loop, with exception propagation. -/
def scanAux (s : ScanState) : List String → Except String ScanState
  | [] => .ok s
  | line :: rest =>
    match processLine s line with
    | .error e => .error e
    | .ok s1 => scanAux s1 rest

/-- Scan a full response from the empty state. -/
def scanLines (lines : List String) : Except String ScanState :=
  scanAux emptyScan lines

/-- The possible results of `_parse`: the `{'on': False}` sentinel for an
absent response, the full report dictionary, the one-element set
`{f'Could not parse: {e}'}` (carrying the local-variable name from the
`NameError`), or an uncaught exception from the scan loop. -/
inductive ParseResult
  | sentinelOff
  | record (r : Label → FieldValue)
  | errorSet (missingVar : String)
  | raised (exn : String)

/-- Building the result dictionary from the loop state: the first local in
evaluation order that is unbound raises `NameError`, which the handler
converts into the error set; otherwise the full dictionary is returned. -/
def buildRecord (s : ScanState) : ParseResult :=
  match dictOrder.find? (fun lab => (s lab).isNone) with
  | some lab => .errorSet (varName lab)
  | none => .record fun lab => (s lab).getD default

/-- `TapDensity._parse`: `None` maps to the sentinel, otherwise the lines
are scanned and the dictionary is built (or the error set returned). -/
def tapDensityParse (response : Option (List String)) : ParseResult :=
  match response with
  | none => .sentinelOff
  | some lines =>
    match scanLines lines with
    | .error e => .raised e
    | .ok s => buildRecord s

/-- Every field of a returned record has the value representation the code
gives it (see `tagOk`). -/
def typedOk (r : Label → FieldValue) : Prop :=
  ∀ lab, tagOk lab (r lab) = true

/-- Project a field out of a result, when the result is a record. -/
def resultField (p : ParseResult) (lab : Label) : Option FieldValue :=
  match p with
  | .record r => some (r lab)
  | _ => none

/-- Does the labelled line of a report cover the given field?  True when
some line of the report is matched to that field by the if/elif chain. -/
def coversLabel (lines : List String) (lab : Label) : Bool :=
  lines.any fun l => decide (matchedLabel l = some lab)

/-! ## The reconnecting client (`Client` / `TcpClient`, `copley/util.py`)

The mutable attributes set in `Client.__init__` become an explicit state
record; the outcome of each awaited I/O operation (connecting inside
`wait_for`, and the write-then-read-27-lines exchange inside `wait_for`)
becomes an input of the transition functions.  Raised exceptions travel on
the `Except` error channel; `logger.error` / `logger.exception` calls are
collected as a list of log strings. -/

/-- The connection-related attributes of `Client` (`self.open`,
`self.timeouts`, `self.max_timeouts`, `self.reconnecting`); `open` is
spelled `isOpen` because `open` is reserved in Lean. -/
structure ClientState where
  isOpen : Bool
  timeouts : Nat
  maxTimeouts : Nat
  reconnecting : Bool
deriving DecidableEq

/-- The attribute values set by `Client.__init__`. -/
def initClient : ClientState :=
  { isOpen := false, timeouts := 0, maxTimeouts := 10, reconnecting := false }

/-- `Client.close` (as overridden by `TcpClient.close`): closing the writer
is a pure side effect, the modelled state change is `self.open = False`. -/
def closeClient (s : ClientState) : ClientState :=
  { s with isOpen := false }

/-- Outcome of one connect attempt (`asyncio.open_connection` inside
`wait_for(..., 0.75)`): success, or `asyncio.TimeoutError` / `OSError`. -/
inductive ConnOutcome
  | ok
  | fail
deriving DecidableEq

/-- `TcpClient._handle_connection`: a no-op when already open; otherwise
apply the connect outcome — on success set `open` and clear
`reconnecting`, on failure log the error only when not already
reconnecting, and set `reconnecting`. -/
def handleConnection (s : ClientState) (c : ConnOutcome) : ClientState × List String :=
  if s.isOpen then (s, [])
  else
    match c with
    | .ok => ({ s with isOpen := true, reconnecting := false }, [])
    | .fail =>
      ({ s with reconnecting := true }, if s.reconnecting then [] else ["error"])

/-- Outcome of one write-then-read-27-lines exchange
(`self._readlines(27)` inside `wait_for(..., 10)`). -/
inductive CommOutcome
  | success (lines : List String)
  | timeoutErr
  | typeErr
  | osErr
  | incompleteRead
deriving DecidableEq

/-- The exception classes caught by `_handle_communication`'s `except`
clause: `asyncio.TimeoutError`, `TypeError`, `OSError`. -/
def commCaught : CommOutcome → Bool
  | .timeoutErr => true
  | .typeErr => true
  | .osErr => true
  | _ => false

/-- `TcpClient._handle_communication`: on success reset the timeout
counter and return the lines; on a caught exception increment the counter,
force-close (with an error log) exactly when the counter reaches
`max_timeouts`, log the exception, and return `None`;
`IncompleteReadError` is not caught here and propagates. -/
def handleCommunication (s : ClientState) (o : CommOutcome) :
    Except String (ClientState × Option (List String) × List String) :=
  match o with
  | .success lines => .ok ({ s with timeouts := 0 }, some lines, [])
  | .timeoutErr | .typeErr | .osErr =>
    let s1 := { s with timeouts := s.timeouts + 1 }
    if s1.timeouts = s1.maxTimeouts then
      .ok (closeClient s1, none, ["error", "exception"])
    else
      .ok (s1, none, ["exception"])
  | .incompleteRead => .error "IncompleteReadError"

/-- `Client._write_and_read`: ensure the connection, and if open run the
exchange, catching `IncompleteReadError` into a logged `None`; when not
open, return `None` without attempting the exchange. -/
def writeAndRead (s : ClientState) (c : ConnOutcome) (o : CommOutcome) :
    Except String (ClientState × Option (List String) × List String) :=
  let conn := handleConnection s c
  if conn.1.isOpen then
    match handleCommunication conn.1 o with
    | .ok (s2, r, lg2) => .ok (s2, r, conn.2 ++ lg2)
    | .error e =>
      if e = "IncompleteReadError" then .ok (conn.1, none, conn.2 ++ ["error"])
      else .error e
  else
    .ok (conn.1, none, conn.2)

/-- `TapDensity.get_report`: query the device (`_write_and_read`) and feed
the response, `None` included, to `_parse`. -/
def getReport (s : ClientState) (c : ConnOutcome) (o : CommOutcome) :
    Except String (ClientState × ParseResult × List String) :=
  match writeAndRead s c o with
  | .ok (s1, r, lg) => .ok (s1, tapDensityParse r, lg)
  | .error e => .error e

/-! ## Transport selection (`TapDensity.__init__` / `TcpClient.__init__`) -/

/-- Which transport a driver holds: a serial client on a device path, or a
TCP client on a host and port. -/
inductive Endpoint
  | serial (address : String)
  | tcp (host port : String)
deriving DecidableEq

/-- `TcpClient.__init__`: `self.address, self.port = address.split(':')`
succeeds only when the split yields exactly two parts; otherwise the
`ValueError` is re-raised as an address-format error. -/
def tcpClientInit (address : String) : Except String Endpoint :=
  match pySplit ':' address with
  | [host, port] => .ok (.tcp host port)
  | _ => .error "address must be hostname:port"

/-- `TapDensity.__init__`: a `/dev` or `COM` prefix selects the serial
client, anything else is handed to `TcpClient.__init__`. -/
def tapDensityInit (address : String) : Except String Endpoint :=
  if pyStartswith "/dev" address || pyStartswith "COM" address then
    .ok (.serial address)
  else
    tcpClientInit address

/-! ## Line reading (`TcpClient._readline` / `SerialClient._readline`)

A byte stream is modelled as a character list; a read returns the consumed
token and the remaining stream. -/

/-- `StreamReader.readuntil(term)`: consume up to and including the first
occurrence of the terminator; `none` models the `IncompleteReadError`
raised when the stream ends without it. -/
def readuntilList (term : Char) : List Char → Option (List Char × List Char)
  | [] => none
  | c :: rest =>
    if c = term then some ([c], rest)
    else
      match readuntilList term rest with
      | none => none
      | some (tk, rem) => some (c :: tk, rem)

/-- `TcpClient._readline`: `readuntil(self.eol)` with `eol = b'\r'`, then
decode and strip. -/
def tcpReadline (stream : List Char) : Option (List Char × List Char) :=
  (readuntilList '\r' stream).map fun p => (stripList p.1, p.2)

/-- `serial.Serial.readline()` as used by `SerialClient._readline`: per
pyserial (and this method's own docstring, "Read until a LF terminator"),
consume up to and including the first line feed, or the whole buffer when
none arrives before the read timeout. -/
def serReadlineRaw (stream : List Char) : List Char × List Char :=
  match readuntilList '\n' stream with
  | some p => p
  | none => (stream, [])

/-- `SerialClient._readline`: `self.ser.readline().strip().decode()`. -/
def serialReadline (stream : List Char) : List Char × List Char :=
  let p := serReadlineRaw stream
  (stripList p.1, p.2)

/-! ## The driver surface (`TapDensity`, `copley/driver.py`, and the CLI
reset path, `copley/__init__.py`) -/

/-- The methods defined on the `TapDensity` class, in source order. -/
def tapDensityMethods : List String :=
  ["__init__", "__aenter__", "__aexit__", "query", "get_report", "_parse"]

/-- The ASCII command-set constants of `TapDensity`, in source order. -/
def tapDensityCommands : List String :=
  ["C", "CS", "DATE", "D", "DS", "MODEL", "PR", "PR1", "PR2", "RPM?", "S",
   "SS", "SN", "V"]

/-- The driver method the CLI's `--reset` branch awaits
(`await copley.reset()` in `command_line`). -/
def commandLineResetMethod : String := "reset"

/-- A concrete well-formed 27-line report, with all eleven labelled lines
and sixteen header/footer lines the decoder does not recognize. -/
def demoReport : List String :=
  [ "Tapped Density Tester JV Series",
    "===============================",
    "Serial number: 12345",
    "Firmware: 1.00",
    "Test start: 01/01/2023",
    "Calculation type: Fixed weight",
    "Set Speed: 300",
    "Total Taps: 1250",
    "Sample Weight, W: 2.77",
    "Initial Volume: 170.0",
    "Final Volume: 155.0",
    "Bulk Density: 0.016",
    "Tapped Density (g/mL): 0.018",
    "Hausner Ratio: 1.097",
    "Compress. Index: 8.82",
    "", "", "", "", "", "", "", "", "", "",
    "End of report",
    "" ]

/-- Is an `Except` value a success? -/
def exOk {α : Type} : Except String α → Bool
  | .ok _ => true
  | .error _ => false

/-- Every bound local of a scan state has its field's value representation. -/
def stateOk (s : ScanState) : Prop :=
  ∀ lab v, s lab = some v → tagOk lab v = true

/-! ## Decoder lemmas -/

lemma lineStep_ok_none {line : String} (h : lineStep line = .ok none) :
    matchedLabel line = none := by
  cases hm : matchedLabel line with
  | none => rfl
  | some lab =>
    exfalso
    simp only [lineStep, hm] at h
    cases hv : colonValue line with
    | none => simp [hv] at h
    | some v =>
      simp only [hv] at h
      cases hp : parseValue lab v with
      | ok fv => simp [hp, Except.map] at h
      | error e => simp [hp, Except.map] at h

lemma lineStep_ok_some {line : String} {lab : Label} {fv : FieldValue}
    (h : lineStep line = .ok (some (lab, fv))) :
    matchedLabel line = some lab := by
  cases hm : matchedLabel line with
  | none => simp [lineStep, hm] at h
  | some lab0 =>
    simp only [lineStep, hm] at h
    cases hv : colonValue line with
    | none => simp [hv] at h
    | some v =>
      simp only [hv] at h
      cases hp : parseValue lab0 v with
      | ok fv0 =>
        simp only [hp, Except.map, Except.ok.injEq, Option.some.injEq,
          Prod.mk.injEq] at h
        rw [h.1]
      | error e => simp [hp, Except.map] at h

lemma lineStep_matched_ok {line : String} {lab : Label}
    {x : Option (Label × FieldValue)}
    (hm : matchedLabel line = some lab) (h : lineStep line = .ok x) :
    ∃ fv, x = some (lab, fv) := by
  simp only [lineStep, hm] at h
  cases hv : colonValue line with
  | none => simp [hv] at h
  | some v =>
    simp only [hv] at h
    cases hp : parseValue lab v with
    | ok fv0 =>
      simp only [hp, Except.map, Except.ok.injEq] at h
      exact ⟨fv0, h.symm⟩
    | error e => simp [hp, Except.map] at h

lemma parseValue_tag {lab : Label} {v : String} {fv : FieldValue}
    (h : parseValue lab v = .ok fv) : tagOk lab fv = true := by
  cases lab <;> simp only [parseValue] at h
  case serial_number | total_taps =>
    cases hi : pyInt v <;> simp only [hi] at h
    · simp at h
    · injection h with h; subst h; rfl
  case set_speed =>
    cases hi : pyInt v <;> simp only [hi] at h <;>
      (injection h with h; subst h; rfl)
  case calc_type => injection h with h; subst h; rfl
  all_goals
    split at h
    case isTrue => injection h with h; subst h; rfl
    case isFalse => simp at h

lemma lineStep_some_tag {line : String} {lab : Label} {fv : FieldValue}
    (h : lineStep line = .ok (some (lab, fv))) : tagOk lab fv = true := by
  cases hm : matchedLabel line with
  | none => simp [lineStep, hm] at h
  | some lab0 =>
    simp only [lineStep, hm] at h
    cases hv : colonValue line with
    | none => simp [hv] at h
    | some v =>
      simp only [hv] at h
      cases hp : parseValue lab0 v with
      | ok fv0 =>
        simp only [hp, Except.map, Except.ok.injEq, Option.some.injEq,
          Prod.mk.injEq] at h
        rcases h with ⟨h1, h2⟩
        subst h1
        subst h2
        exact parseValue_tag hp
      | error e => simp [hp, Except.map] at h

lemma matched_substr {line : String} {lab : Label}
    (h : matchedLabel line = some lab) :
    substrIn (labelSubstr lab) line = true := by
  unfold matchedLabel at h
  have h2 := List.find?_some h
  exact h2

lemma matchedLabel_none_of_no_substr {line : String}
    (h : ∀ lab, substrIn (labelSubstr lab) line = false) :
    matchedLabel line = none :=
  List.find?_eq_none.mpr fun lab _ => by simp [h lab]

lemma processLine_of_none {s : ScanState} {line : String}
    (h : lineStep line = .ok none) : processLine s line = .ok s := by
  simp [processLine, h, Except.map]

lemma processLine_of_some {s : ScanState} {line : String} {lab : Label}
    {fv : FieldValue} (h : lineStep line = .ok (some (lab, fv))) :
    processLine s line = .ok fun l => if l = lab then some fv else s l := by
  simp [processLine, h, Except.map]

lemma processLine_of_error {s : ScanState} {line : String} {e : String}
    (h : lineStep line = .error e) : processLine s line = .error e := by
  simp [processLine, h, Except.map]

lemma processLine_ok_cases {s s1 : ScanState} {line : String}
    (h : processLine s line = .ok s1) :
    (lineStep line = .ok none ∧ s1 = s) ∨
      ∃ lab fv, lineStep line = .ok (some (lab, fv)) ∧
        s1 = fun l => if l = lab then some fv else s l := by
  cases hl : lineStep line with
  | error e => rw [processLine_of_error hl] at h; simp at h
  | ok x =>
    cases x with
    | none =>
      rw [processLine_of_none hl] at h
      exact Or.inl ⟨rfl, (Except.ok.injEq _ _ ▸ h).symm⟩
    | some p =>
      obtain ⟨lab0, fv0⟩ := p
      rw [processLine_of_some hl] at h
      refine Or.inr ⟨lab0, fv0, rfl, ?_⟩
      exact (Except.ok.injEq _ _ ▸ h).symm

lemma processLine_keeps {s s1 : ScanState} {line : String} {lab : Label}
    (h : processLine s line = .ok s1) (hne : s lab ≠ none) : s1 lab ≠ none := by
  rcases processLine_ok_cases h with ⟨-, rfl⟩ | ⟨lab0, fv, -, rfl⟩
  · exact hne
  · by_cases he : lab = lab0 <;> simp [he, hne]

lemma scanAux_mono {lines : List String} :
    ∀ {s s' : ScanState}, scanAux s lines = .ok s' →
      ∀ lab, s lab ≠ none → s' lab ≠ none := by
  induction lines with
  | nil => intro s s' h lab hne; unfold scanAux at h; cases h; exact hne
  | cons line rest ih =>
    intro s s' h lab hne
    unfold scanAux at h
    cases hp : processLine s line with
    | error e => rw [hp] at h; simp at h
    | ok s1 =>
      rw [hp] at h
      exact ih h lab (processLine_keeps hp hne)

lemma scanAux_covers {lines : List String} :
    ∀ {s s' : ScanState}, scanAux s lines = .ok s' →
      ∀ lab, coversLabel lines lab = true → s' lab ≠ none := by
  induction lines with
  | nil => intro s s' h lab hcov; simp [coversLabel] at hcov
  | cons line rest ih =>
    intro s s' h lab hcov
    unfold scanAux at h
    cases hp : processLine s line with
    | error e => rw [hp] at h; simp at h
    | ok s1 =>
      rw [hp] at h
      rcases List.any_eq_true.mp hcov with ⟨l, hl, hdec⟩
      rcases List.mem_cons.mp hl with rfl | hmem
      · have hm : matchedLabel l = some lab := of_decide_eq_true hdec
        cases hq : lineStep l with
        | error e => rw [processLine_of_error hq] at hp; simp at hp
        | ok x =>
          rcases lineStep_matched_ok hm hq with ⟨fv, rfl⟩
          rw [processLine_of_some hq] at hp
          have hs1 : s1 lab ≠ none := by
            cases hp
            simp
          exact scanAux_mono h lab hs1
      · exact ih h lab (List.any_eq_true.mpr ⟨l, hmem, hdec⟩)

lemma scanAux_unmatched {lines : List String} :
    ∀ {s s' : ScanState}, scanAux s lines = .ok s' →
      ∀ lab, (∀ l ∈ lines, matchedLabel l ≠ some lab) → s' lab = s lab := by
  induction lines with
  | nil => intro s s' h lab _; unfold scanAux at h; cases h; rfl
  | cons line rest ih =>
    intro s s' h lab hno
    unfold scanAux at h
    cases hp : processLine s line with
    | error e => rw [hp] at h; simp at h
    | ok s1 =>
      rw [hp] at h
      have hrest : s' lab = s1 lab :=
        ih h lab fun l hl => hno l (List.mem_cons_of_mem _ hl)
      have hhead : s1 lab = s lab := by
        rcases processLine_ok_cases hp with ⟨-, rfl⟩ | ⟨lab0, fv, hq, rfl⟩
        · rfl
        · have : matchedLabel line = some lab0 := lineStep_ok_some hq
          have hne : lab ≠ lab0 := fun he =>
            hno line (List.mem_cons_self _ _) (he ▸ this)
          simp [hne]
      rw [hrest, hhead]

lemma scanAux_total {lines : List String} :
    ∀ {s : ScanState}, (∀ l ∈ lines, exOk (lineStep l) = true) →
      ∃ s', scanAux s lines = .ok s' := by
  induction lines with
  | nil => intro s _; exact ⟨s, rfl⟩
  | cons line rest ih =>
    intro s hok
    have hl : exOk (lineStep line) = true := hok line (List.mem_cons_self _ _)
    cases hq : lineStep line with
    | error e => rw [hq] at hl; simp [exOk] at hl
    | ok x =>
      have hrest : ∀ l ∈ rest, exOk (lineStep l) = true := fun l hm =>
        hok l (List.mem_cons_of_mem _ hm)
      cases x with
      | none =>
        rcases ih (s := s) hrest with ⟨s', hs'⟩
        exact ⟨s', by unfold scanAux; rw [processLine_of_none hq]; exact hs'⟩
      | some p =>
        obtain ⟨lab0, fv0⟩ := p
        rcases ih (s := fun l => if l = lab0 then some fv0 else s l) hrest
          with ⟨s', hs'⟩
        refine ⟨s', ?_⟩
        unfold scanAux
        rw [processLine_of_some hq]
        exact hs'

lemma scanAux_stateOk {lines : List String} :
    ∀ {s s' : ScanState}, scanAux s lines = .ok s' → stateOk s → stateOk s' := by
  induction lines with
  | nil => intro s s' h hs; unfold scanAux at h; cases h; exact hs
  | cons line rest ih =>
    intro s s' h hs
    unfold scanAux at h
    cases hp : processLine s line with
    | error e => rw [hp] at h; simp at h
    | ok s1 =>
      rw [hp] at h
      refine ih h ?_
      rcases processLine_ok_cases hp with ⟨-, rfl⟩ | ⟨lab0, fv, hq, rfl⟩
      · exact hs
      · intro lab v hv
        by_cases he : lab = lab0
        · subst he
          simp at hv
          exact hv ▸ lineStep_some_tag hq
        · simp [he] at hv
          exact hs lab v hv

lemma mem_dictOrder (lab : Label) : lab ∈ dictOrder := by
  cases lab <;> simp [dictOrder]

lemma scanAux_of_unmatched {lines : List String} :
    ∀ {s : ScanState}, (∀ l ∈ lines, matchedLabel l = none) →
      scanAux s lines = .ok s := by
  induction lines with
  | nil => intro s _; rfl
  | cons line rest ih =>
    intro s h
    have hm : matchedLabel line = none := h line (List.mem_cons_self _ _)
    have hl : lineStep line = .ok none := by simp [lineStep, hm]
    unfold scanAux
    rw [processLine_of_none hl]
    exact ih fun l h2 => h l (List.mem_cons_of_mem _ h2)

lemma scanAux_raises {lines : List String} {line : String} {e : String} :
    ∀ {s : ScanState}, line ∈ lines → lineStep line = .error e →
      ∃ e2, scanAux s lines = .error e2 := by
  induction lines with
  | nil => intro s h _; cases h
  | cons l2 rest ih =>
    intro s hmem he
    rcases List.mem_cons.mp hmem with rfl | hmem2
    · exact ⟨e, by unfold scanAux; rw [processLine_of_error he]⟩
    · cases hp : processLine s l2 with
      | error e3 => exact ⟨e3, by unfold scanAux; rw [hp]⟩
      | ok s1 =>
        rcases ih (s := s1) hmem2 he with ⟨e2, h2⟩
        exact ⟨e2, by unfold scanAux; rw [hp]; exact h2⟩

lemma scanAux_append {xs ys : List String} :
    ∀ {s : ScanState}, scanAux s (xs ++ ys) =
      match scanAux s xs with
      | .error e => .error e
      | .ok s1 => scanAux s1 ys := by
  induction xs with
  | nil => intro s; rfl
  | cons l t ih =>
    intro s
    show scanAux s (l :: (t ++ ys)) = _
    cases hp : processLine s l with
    | error e => simp [scanAux, hp]
    | ok s1 => simp [scanAux, hp, ih]

/-! ## Client state-machine lemmas -/

lemma handleCommunication_success (s : ClientState) (ls : List String) :
    handleCommunication s (.success ls) = .ok ({ s with timeouts := 0 }, some ls, []) :=
  rfl

lemma handleCommunication_caught {o : CommOutcome} (s : ClientState)
    (h : commCaught o = true) :
    handleCommunication s o =
      if s.timeouts + 1 = s.maxTimeouts then
        .ok (closeClient { s with timeouts := s.timeouts + 1 }, none,
          ["error", "exception"])
      else
        .ok ({ s with timeouts := s.timeouts + 1 }, none, ["exception"]) := by
  cases o with
  | timeoutErr => rfl
  | typeErr => rfl
  | osErr => rfl
  | success ls => exact absurd h (by simp [commCaught])
  | incompleteRead => exact absurd h (by simp [commCaught])

lemma handleCommunication_incomplete (s : ClientState) :
    handleCommunication s .incompleteRead = .error "IncompleteReadError" :=
  rfl

lemma writeAndRead_not_success {o : CommOutcome} (s : ClientState)
    (c : ConnOutcome) (h : ∀ ls, o ≠ .success ls) :
    ∃ s2 lg, writeAndRead s c o = .ok (s2, none, lg) := by
  simp only [writeAndRead]
  by_cases hopen : (handleConnection s c).1.isOpen
  · rw [if_pos hopen]
    cases o with
    | success ls => exact absurd rfl (h ls)
    | incompleteRead =>
      exact ⟨(handleConnection s c).1, (handleConnection s c).2 ++ ["error"],
        by rw [handleCommunication_incomplete]; simp⟩
    | timeoutErr | typeErr | osErr =>
      rw [handleCommunication_caught _ (by rfl)]
      by_cases hmax : (handleConnection s c).1.timeouts + 1
          = (handleConnection s c).1.maxTimeouts
      · rw [if_pos hmax]
        exact ⟨_, _, rfl⟩
      · rw [if_neg hmax]
        exact ⟨_, _, rfl⟩
  · rw [if_neg hopen]
    exact ⟨_, _, rfl⟩

lemma writeAndRead_total (s : ClientState) (c : ConnOutcome) (o : CommOutcome) :
    ∃ out, writeAndRead s c o = .ok out := by
  simp only [writeAndRead]
  by_cases hopen : (handleConnection s c).1.isOpen
  · rw [if_pos hopen]
    cases o with
    | success ls =>
      rw [handleCommunication_success]
      exact ⟨_, rfl⟩
    | incompleteRead =>
      exact ⟨((handleConnection s c).1, none, (handleConnection s c).2 ++ ["error"]),
        by rw [handleCommunication_incomplete]; simp⟩
    | timeoutErr | typeErr | osErr =>
      rw [handleCommunication_caught _ (by rfl)]
      by_cases hmax : (handleConnection s c).1.timeouts + 1
          = (handleConnection s c).1.maxTimeouts
      · rw [if_pos hmax]
        exact ⟨_, rfl⟩
      · rw [if_neg hmax]
        exact ⟨_, rfl⟩
  · rw [if_neg hopen]
    exact ⟨_, rfl⟩

/-! ## String-splitting and read-until lemmas -/

lemma splitList_no_sep {sep : Char} :
    ∀ {cs : List Char}, sep ∉ cs → splitList sep cs = [cs] := by
  intro cs
  induction cs with
  | nil => intro _; rfl
  | cons c rest ih =>
    intro h
    have hc : c ≠ sep := fun he => h (he ▸ List.mem_cons_self _ _)
    have h2 := ih fun hm => h (List.mem_cons_of_mem _ hm)
    simp [splitList, hc, h2]

lemma splitList_sep_once {sep : Char} {h1 p1 : List Char}
    (hh : sep ∉ h1) (hp : sep ∉ p1) :
    splitList sep (h1 ++ sep :: p1) = [h1, p1] := by
  induction h1 with
  | nil => simp [splitList, splitList_no_sep hp]
  | cons c rest ih =>
    have hc : c ≠ sep := fun he => hh (he ▸ List.mem_cons_self _ _)
    have h2 := ih fun hm => hh (List.mem_cons_of_mem _ hm)
    simp [splitList, hc, h2]

lemma scanLines_ok_of_all_ok {lines : List String}
    (hok : ∀ l ∈ lines, exOk (lineStep l) = true) :
    ∃ s, scanLines lines = .ok s := by
  unfold scanLines
  exact scanAux_total hok

lemma emptyScan_stateOk : stateOk emptyScan := by
  intro lab v hv
  simp [emptyScan] at hv

lemma buildRecord_of_total {s : ScanState} (hall : ∀ lab, s lab ≠ none) :
    buildRecord s = .record fun lab => (s lab).getD default := by
  unfold buildRecord
  have hfind : dictOrder.find? (fun lab => (s lab).isNone) = none :=
    List.find?_eq_none.mpr fun lab _ => by
      simp only [Option.isNone_iff_eq_none]
      simp [hall lab]
  rw [hfind]

lemma readuntil_first {term : Char} :
    ∀ {a r : List Char}, term ∉ a →
      readuntilList term (a ++ term :: r) = some (a ++ [term], r) := by
  intro a
  induction a with
  | nil => intro r _; simp [readuntilList]
  | cons c t ih =>
    intro r h
    have hc : c ≠ term := fun he => h (he ▸ List.mem_cons_self _ _)
    have h2 := ih (r := r) fun hm => h (List.mem_cons_of_mem _ hm)
    simp [readuntilList, hc, h2]

/-! ## Claim theorems -/

/-- Claim C1: for every well-formed 27-line report — every line that the
if/elif chain matches parses cleanly, and all eleven required labels are
matched by some line, in any order — `_parse` on the received response
returns a record containing all eleven fields with correctly typed values;
and the decoder ignores unrecognized lines (removing or inserting a line
matched by no label does not change the result). -/
theorem decode_wellformed_full_record :
    (∀ lines : List String, lines.length = 27 →
      (∀ l ∈ lines, exOk (lineStep l) = true) →
      (∀ lab, coversLabel lines lab = true) →
      ∃ r, tapDensityParse (some lines) = .record r ∧ typedOk r) ∧
    (∀ pre junk post, matchedLabel junk = none →
      tapDensityParse (some (pre ++ junk :: post)) =
        tapDensityParse (some (pre ++ post))) := by
  constructor
  · intro lines _ hok hcov
    rcases scanAux_total (s := emptyScan) hok with ⟨s, hs⟩
    have hall : ∀ lab, s lab ≠ none := fun lab =>
      scanAux_covers hs lab (hcov lab)
    have hstate : stateOk s := scanAux_stateOk hs emptyScan_stateOk
    refine ⟨fun lab => (s lab).getD default, ?_, ?_⟩
    · have hsl : scanLines lines = .ok s := hs
      simp only [tapDensityParse, hsl]
      exact buildRecord_of_total hall
    · intro lab
      cases hv : s lab with
      | none => exact absurd hv (hall lab)
      | some v =>
        simp only [hv, Option.getD_some]
        exact hstate lab v hv
  · intro pre junk post hj
    have hstep : ∀ s : ScanState, processLine s junk = .ok s :=
      fun s => processLine_of_none (by simp [lineStep, hj])
    simp only [tapDensityParse, scanLines]
    rw [scanAux_append, scanAux_append]
    cases scanAux emptyScan pre with
    | error e => rfl
    | ok s1 =>
      dsimp only
      have h2 : scanAux s1 (junk :: post) = scanAux s1 post := by
        show (match processLine s1 junk with
          | Except.error e => Except.error e
          | Except.ok s2 => scanAux s2 post) = scanAux s1 post
        rw [hstep s1]
      rw [h2]

/-- Witness for C1: the concrete 27-line demo report decodes to a full,
correctly typed record. -/
theorem decode_wellformed_full_record_witness :
    ∃ r, tapDensityParse (some demoReport) = .record r ∧ typedOk r :=
  decode_wellformed_full_record.1 demoReport (by decide) (by decide) (by decide)

/-- Claim C2: for every received report in which some required label never
occurs in any line, the decoder never returns a record; when the scan does
not raise, it returns the decode-error set, and any returned decode-error
set names (by its Python local-variable name) a field whose label was
matched by no line. -/
theorem decode_missing_label_fails (lines : List String) (lab : Label)
    (hmiss : ∀ l ∈ lines, substrIn (labelSubstr lab) l = false) :
    (∀ r, tapDensityParse (some lines) ≠ .record r) ∧
    ((∀ e, tapDensityParse (some lines) ≠ .raised e) →
      ∃ v, tapDensityParse (some lines) = .errorSet v) ∧
    (∀ v, tapDensityParse (some lines) = .errorSet v →
      ∃ lab2, v = varName lab2 ∧ ∀ l ∈ lines, matchedLabel l ≠ some lab2) := by
  have hnm : ∀ l ∈ lines, matchedLabel l ≠ some lab := by
    intro l hl hm
    have h2 := matched_substr hm
    rw [hmiss l hl] at h2
    exact Bool.false_ne_true h2
  cases hs : scanLines lines with
  | error e =>
    have hp : tapDensityParse (some lines) = .raised e := by
      simp [tapDensityParse, hs]
    refine ⟨?_, ?_, ?_⟩
    · intro r hr
      rw [hp] at hr
      exact ParseResult.noConfusion hr
    · intro hne
      exact absurd hp (hne e)
    · intro v hv
      rw [hp] at hv
      exact ParseResult.noConfusion hv
  | ok s =>
    have hs2 : scanAux emptyScan lines = .ok s := hs
    have hlab : s lab = none := by
      have h2 := scanAux_unmatched hs2 lab hnm
      simpa [emptyScan] using h2
    have hfind : dictOrder.find? (fun l2 => (s l2).isNone) ≠ none := by
      intro hn
      have h2 := List.find?_eq_none.mp hn lab (mem_dictOrder lab)
      simp [hlab] at h2
    cases hf : dictOrder.find? (fun l2 => (s l2).isNone) with
    | none => exact absurd hf hfind
    | some lab1 =>
      have hp : tapDensityParse (some lines) = .errorSet (varName lab1) := by
        simp only [tapDensityParse, hs]
        unfold buildRecord
        rw [hf]
      have hlab1 : s lab1 = none := by
        have h2 := List.find?_some hf
        simpa [Option.isNone_iff_eq_none] using h2
      have hnm1 : ∀ l ∈ lines, matchedLabel l ≠ some lab1 := by
        intro l hl hm
        have hcov : coversLabel lines lab1 = true :=
          List.any_eq_true.mpr ⟨l, hl, decide_eq_true hm⟩
        exact scanAux_covers hs2 lab1 hcov hlab1
      refine ⟨?_, ?_, ?_⟩
      · intro r hr
        rw [hp] at hr
        exact ParseResult.noConfusion hr
      · intro _
        exact ⟨varName lab1, hp⟩
      · intro v hv
        rw [hp] at hv
        cases hv
        exact ⟨lab1, rfl, hnm1⟩

/-- Witness for C2: a one-line report carrying only the total-taps label is
decoded to the error set naming the serial-number local, not to a record. -/
theorem decode_missing_label_fails_witness :
    (∀ r, tapDensityParse (some ["Total Taps: 10"]) ≠ .record r) ∧
    ((∀ e, tapDensityParse (some ["Total Taps: 10"]) ≠ .raised e) →
      ∃ v, tapDensityParse (some ["Total Taps: 10"]) = .errorSet v) ∧
    (∀ v, tapDensityParse (some ["Total Taps: 10"]) = .errorSet v →
      ∃ lab2, v = varName lab2 ∧
        ∀ l ∈ ["Total Taps: 10"], matchedLabel l ≠ some lab2) :=
  decode_missing_label_fails ["Total Taps: 10"] .serial_number (by decide)

/-- Claim C10: for every received response none of whose lines contains any
of the eleven label substrings (for example the empty list), `_parse`
returns the error-set value naming the first unbound local (`sn`) — neither
a record nor the off sentinel. -/
theorem decode_unrecognized_error_set (lines : List String)
    (h : ∀ l ∈ lines, ∀ lab : Label, substrIn (labelSubstr lab) l = false) :
    tapDensityParse (some lines) = .errorSet (varName .serial_number) := by
  have hnm : ∀ l ∈ lines, matchedLabel l = none := fun l hl =>
    matchedLabel_none_of_no_substr (h l hl)
  have hs : scanLines lines = .ok emptyScan := scanAux_of_unmatched hnm
  simp only [tapDensityParse, hs]
  rfl

/-- Witness for C10: the mock's nonsense response decodes to the error set
naming `sn`. -/
theorem decode_unrecognized_error_set_witness :
    tapDensityParse (some ["hello world :)"]) = .errorSet (varName .serial_number) :=
  decode_unrecognized_error_set ["hello world :)"] (by decide)

/-- Counterexample for C4: in the demo report the sample-weight value
`2.77` is stored as a `float(...)` conversion result, not carried as its
raw trimmed text — so "every other matched field's value is carried as its
raw trimmed text (not converted to a number)" fails at this input. -/
theorem decode_raw_text_counterexample :
    resultField (tapDensityParse (some demoReport)) .sample_weight
      = some (.float "2.77") ∧
    ∀ t, FieldValue.float "2.77" ≠ FieldValue.str t := by
  constructor
  · decide
  · intro t h
    exact FieldValue.noConfusion h

/-- Claim C4 (amended): in a successful decode the integer fields (serial
number, total taps) are parsed as integers, calculation type is carried as
raw trimmed text, set speed as an integer when numeric else raw text, and
the seven measurement fields are converted with `float(...)`; a non-numeric
value for an integer field raises and fails the whole decode. -/
theorem decode_field_typing :
    (∀ lines r, tapDensityParse (some lines) = .record r → typedOk r) ∧
    (∀ (lines : List String) line v lab, line ∈ lines →
      matchedLabel line = some lab →
      (lab = Label.serial_number ∨ lab = Label.total_taps) →
      colonValue line = some v → pyInt v = none →
      ∃ e, tapDensityParse (some lines) = .raised e) := by
  constructor
  · intro lines r hr
    cases hs : scanLines lines with
    | error e =>
      rw [show tapDensityParse (some lines) = .raised e by
        simp [tapDensityParse, hs]] at hr
      exact absurd hr (fun h2 => ParseResult.noConfusion h2)
    | ok s =>
      have hs2 : scanAux emptyScan lines = .ok s := hs
      have hbr : buildRecord s = .record r := by
        rw [show tapDensityParse (some lines) = buildRecord s by
          simp [tapDensityParse, hs]] at hr
        exact hr
      unfold buildRecord at hbr
      cases hf : dictOrder.find? (fun lab => (s lab).isNone) with
      | some lab =>
        rw [hf] at hbr
        exact absurd hbr (fun h2 => ParseResult.noConfusion h2)
      | none =>
        rw [hf] at hbr
        have hall : ∀ lab, s lab ≠ none := by
          intro lab hn
          have h2 := List.find?_eq_none.mp hf lab (mem_dictOrder lab)
          simp [hn] at h2
        have hstate : stateOk s := scanAux_stateOk hs2 emptyScan_stateOk
        injection hbr with hbr
        intro lab
        rw [← hbr]
        cases hv : s lab with
        | none => exact absurd hv (hall lab)
        | some v =>
          simp only [hv, Option.getD_some]
          exact hstate lab v hv
  · intro lines line v lab hmem hm hlab hcv hpi
    have hls : lineStep line = .error "ValueError" := by
      rcases hlab with rfl | rfl <;>
        simp [lineStep, hm, hcv, parseValue, hpi, Except.map]
    rcases scanAux_raises (s := emptyScan) hmem hls with ⟨e2, h2⟩
    refine ⟨e2, ?_⟩
    have hs : scanLines lines = .error e2 := h2
    simp [tapDensityParse, hs]

/-- Witness for C4 (amended): a report whose serial-number value is not
numeric makes the whole decode raise. -/
theorem decode_field_typing_witness :
    ∃ e, tapDensityParse (some ["Serial number: abc"]) = .raised e :=
  decode_field_typing.2 ["Serial number: abc"] "Serial number: abc" "abc"
    .serial_number (by decide) (by decide) (Or.inl rfl) (by decide) (by decide)

/-- Claim C3: `get_report` never surfaces an exception — every outcome of
the connect attempt and of the exchange yields a normal return — and
whenever the exchange produces no response (the endpoint never replies,
the connection is down, or the read fails), the result is exactly the
`{'on': False}` sentinel. -/
theorem get_report_absorbs_failures (s : ClientState) (c : ConnOutcome)
    (o : CommOutcome) :
    (∃ out, getReport s c o = .ok out) ∧
    ((∀ ls, o ≠ .success ls) →
      ∃ s2 lg, getReport s c o = .ok (s2, .sentinelOff, lg)) := by
  constructor
  · rcases writeAndRead_total s c o with ⟨out, h⟩
    obtain ⟨s2, r, lg⟩ := out
    exact ⟨(s2, tapDensityParse r, lg), by simp [getReport, h]⟩
  · intro hne
    rcases writeAndRead_not_success s c hne with ⟨s2, lg, h⟩
    exact ⟨s2, lg, by simp [getReport, h, tapDensityParse]⟩

/-- Witness for C3: from a fresh client whose connect attempt fails and
whose exchange times out, `get_report` returns the off sentinel. -/
theorem get_report_absorbs_failures_witness :
    ∃ s2 lg, getReport initClient .fail .timeoutErr
      = .ok (s2, .sentinelOff, lg) :=
  (get_report_absorbs_failures initClient .fail .timeoutErr).2
    (fun _ls h => CommOutcome.noConfusion h)

/-- Counterexample for C5: an exchange that fails with
`IncompleteReadError` — raised past the `except` clause of
`_handle_communication` and caught only in `_write_and_read` — returns no
response yet leaves the consecutive-timeout counter untouched: an open
client with counter 0 still has counter 0 after this failed exchange, so
"the counter increments by one on each failed exchange" is false here. -/
theorem timeout_counter_counterexample :
    writeAndRead ⟨true, 0, 10, false⟩ .ok .incompleteRead
      = .ok (⟨true, 0, 10, false⟩, none, ["error"]) ∧
    (0 : Nat) ≠ 0 + 1 := by
  constructor
  · rfl
  · decide

/-- Claim C5 (amended): the consecutive-timeout counter increments by one
on each caught failed exchange (timeout, TypeError, OSError), while an
exchange failed by IncompleteReadError returns no response with the
post-connection client state — counter included — unchanged; the counter
resets to zero on any successful exchange; the configured maximum is 10;
exactly when the incremented counter reaches the maximum the connection is
force-closed and an error is logged; and after a close the next call's
connection handling performs a fresh connect attempt (leaving the counter
to be cleared by the first successful exchange). -/
theorem timeout_counter_policy_amended :
    initClient.maxTimeouts = 10 ∧
    (∀ s o, commCaught o = true →
      ∃ s2 lg, handleCommunication s o = .ok (s2, none, lg) ∧
        s2.timeouts = s.timeouts + 1 ∧
        (s.timeouts + 1 = s.maxTimeouts → s2.isOpen = false ∧ "error" ∈ lg) ∧
        (s.timeouts + 1 ≠ s.maxTimeouts → s2.isOpen = s.isOpen)) ∧
    (∀ s c, (handleConnection s c).1.isOpen = true →
      ∃ lg, writeAndRead s c .incompleteRead
        = .ok ((handleConnection s c).1, none, lg)) ∧
    (∀ s ls s2 r lg, handleCommunication s (.success ls) = .ok (s2, r, lg) →
      s2.timeouts = 0) ∧
    (∀ s, s.isOpen = false →
      (handleConnection s .ok).1.isOpen = true ∧
      (handleConnection s .ok).1.timeouts = s.timeouts) := by
  refine ⟨rfl, ?_, ?_, ?_, ?_⟩
  · intro s o h
    rw [handleCommunication_caught s h]
    by_cases hmax : s.timeouts + 1 = s.maxTimeouts
    · rw [if_pos hmax]
      exact ⟨_, _, rfl, rfl, fun _ => ⟨rfl, by simp⟩, fun h2 => absurd hmax h2⟩
    · rw [if_neg hmax]
      exact ⟨_, _, rfl, rfl, fun h2 => absurd h2 hmax, fun _ => rfl⟩
  · intro s c h
    refine ⟨(handleConnection s c).2 ++ ["error"], ?_⟩
    simp only [writeAndRead]
    rw [if_pos h, handleCommunication_incomplete]
    simp
  · intro s _ls s2 r lg h
    rw [handleCommunication_success] at h
    injection h with h
    injection h with h1 h2
    rw [← h1]
  · intro s h
    simp [handleConnection, h]

/-- Witness for C5 (amended): a client one failure short of the maximum is
force-closed, with an error logged, by the next caught timeout. -/
theorem timeout_counter_policy_amended_witness :
    ∃ s2 lg, handleCommunication ⟨true, 9, 10, false⟩ .timeoutErr
        = .ok (s2, none, lg) ∧
      s2.timeouts = (9 : Nat) + 1 ∧
      ((9 : Nat) + 1 = 10 → s2.isOpen = false ∧ "error" ∈ lg) ∧
      ((9 : Nat) + 1 ≠ 10 → s2.isOpen = true) :=
  timeout_counter_policy_amended.2.1 ⟨true, 9, 10, false⟩ .timeoutErr (by decide)

/-- Claim C7: at construction, an address starting with `/dev` or `COM`
selects the serial transport; any other address is parsed as `host:port`
for the TCP transport, and construction fails with the address-format
error when the address has no colon; no I/O is involved (the functions are
pure). -/
theorem address_transport_selection (a : String) :
    ((pyStartswith "/dev" a || pyStartswith "COM" a) = true →
      tapDensityInit a = .ok (.serial a)) ∧
    ((pyStartswith "/dev" a || pyStartswith "COM" a) = false →
      (':' ∉ a.toList →
        tapDensityInit a = .error "address must be hostname:port") ∧
      (∀ h p, a.toList = h ++ ':' :: p → ':' ∉ h → ':' ∉ p →
        tapDensityInit a = .ok (.tcp (String.mk h) (String.mk p)))) := by
  constructor
  · intro hp
    simp [tapDensityInit, hp]
  · intro hp
    constructor
    · intro hno
      have hsplit : pySplit ':' a = [String.mk a.toList] := by
        unfold pySplit
        rw [splitList_no_sep hno]
        rfl
      simp [tapDensityInit, hp, tcpClientInit, hsplit]
    · intro h p heq hh hpp
      have hsplit : pySplit ':' a = [String.mk h, String.mk p] := by
        unfold pySplit
        rw [heq, splitList_sep_once hh hpp]
        rfl
      simp [tapDensityInit, hp, tcpClientInit, hsplit]

/-- Witness for C7: the address `badaddress` (no colon) fails construction
with the address-format error, and a `/dev` address selects serial. -/
theorem address_transport_selection_witness :
    tapDensityInit "badaddress" = .error "address must be hostname:port" ∧
    tapDensityInit "/dev/ttyUSB0" = .ok (.serial "/dev/ttyUSB0") :=
  ⟨((address_transport_selection "badaddress").2 (by decide)).1 (by decide),
    (address_transport_selection "/dev/ttyUSB0").1 (by decide)⟩

/-- Claim C8 (code bug): the spec and the CLI agree that the driver
exposes a reset operation, but the `TapDensity` class defines no `reset`
(or `resetTest`) method and its command set has no reset command — the
CLI's `--reset` branch, which awaits `copley.reset()`, would raise
`AttributeError`. -/
theorem reset_method_missing :
    commandLineResetMethod ∉ tapDensityMethods ∧
    "resetTest" ∉ tapDensityMethods ∧
    "TRESET" ∉ tapDensityCommands := by
  decide

/-- Counterexample for C9: on the stream `ab\r cd\n`, the serial readline
does not stop at the carriage return — it consumes the whole stream up to
the line feed — so "reads until a single carriage-return terminator" is
false for the serial variant at this input. -/
theorem serial_readline_counterexample :
    serReadlineRaw ("ab\rcd\n".toList) = ("ab\rcd\n".toList, []) ∧
    serReadlineRaw ("ab\rcd\n".toList) ≠ ("ab\r".toList, "cd\n".toList) := by
  constructor
  · decide
  · decide

/-- Claim C9 (amended): the TCP readline consumes the stream up to and
including the first carriage return; the serial readline consumes up to
and including the first line feed; both then strip the token. -/
theorem readline_terminators :
    (∀ a r, '\r' ∉ a →
      tcpReadline (a ++ '\r' :: r) = some (stripList (a ++ ['\r']), r)) ∧
    (∀ b r, '\n' ∉ b →
      serialReadline (b ++ '\n' :: r) = (stripList (b ++ ['\n']), r)) := by
  constructor
  · intro a r h
    simp [tcpReadline, readuntil_first h]
  · intro b r h
    simp [serialReadline, serReadlineRaw, readuntil_first h]

/-- Witness for C9 (amended): concrete streams split at their respective
terminators. -/
theorem readline_terminators_witness :
    tcpReadline ("ok".toList ++ '\r' :: "zz".toList)
      = some (stripList ("ok".toList ++ ['\r']), "zz".toList) ∧
    serialReadline ("ok".toList ++ '\n' :: "zz".toList)
      = (stripList ("ok".toList ++ ['\n']), "zz".toList) :=
  ⟨readline_terminators.1 "ok".toList "zz".toList (by decide),
    readline_terminators.2 "ok".toList "zz".toList (by decide)⟩

end Copley
